import Mathlib

/-!
Shallow embedding of `internal/olm/operator/registry/operator_installer.go`
from the operator-sdk repository, together with proofs about the
`OperatorInstaller` workflow (`InstallOperator` and its helper steps).

Remote cluster interactions (the controller-runtime client, the OLM client)
are modelled by an oracle (`Cluster`): each remote call consumes the oracle's
answer for that call (polling calls are indexed by the attempt number).  Every
function additionally returns the list of remote-call events it performed, in
order, each tagged with the wrapper (direct call, condition poll, conflict
retry) the source makes the call under, so that ordering, short-circuiting
and wrapping properties can be stated.

Go's `(value, error)` returns are modelled by `Except Err` / `Option Err`
(`Except.error e` corresponds to returning `nil, err` with `err ≠ nil`).
The nil-pointer dereference in `approveInstallPlan` (reading
`sub.Status.InstallPlanRef.Name` without a nil check) is modelled by an
`Option` result at the function level: `none` is the panic.
-/

namespace OperatorSDK

/-- Embeds Go error values as they flow through this file.
`conflict` stands for an apimachinery `StatusError` whose reason is
`StatusReasonConflict`; `waitTimeout` is `wait.ErrWaitTimeout`;
`apiErr` is any other error, carrying its message;
`wrapv` is `fmt.Errorf("msg: %v", err)`, which formats the cause into a new
plain string error (the cause's type is lost);
`wrapw` is `fmt.Errorf("msg: %w", err)`, which keeps the cause wrapped. -/
inductive Err where
  | conflict : Err
  | waitTimeout : Err
  | apiErr : String → Err
  | wrapv : String → Err → Err
  | wrapw : String → Err → Err
deriving DecidableEq, Repr

/-- Embeds `k8s.io/apimachinery/pkg/api/errors.IsConflict` as vendored in this
repository's era: `ReasonForError` type-switches on the error value itself and
does not unwrap, so only a bare `StatusError` with reason Conflict is
recognised; both `%v`- and `%w`-wrapped errors are not. -/
def Err.isConflict : Err → Bool
  | .conflict => true
  | _ => false

/-- Embeds `k8s.io/apimachinery/pkg/types.NamespacedName`. -/
structure NamespacedName where
  name : String
  ns : String
deriving DecidableEq, Repr

/-- Embeds `sort.Strings` (ascending lexicographic sort of a string slice):
insertion of one element into a sorted list. -/
def insertSorted (s : String) : List String → List String
  | [] => [s]
  | x :: xs => if s ≤ x then s :: x :: xs else x :: insertSorted s xs

/-- Embeds `sort.Strings`: ascending insertion sort.  As a function from the
slice's contents to the sorted contents this agrees with Go's `sort.Strings`
(both return the weakly ascending rearrangement, and equal strings are
indistinguishable), which is all the source uses it for. -/
def sortStrings : List String → List String
  | [] => []
  | x :: xs => insertSorted x (sortStrings xs)

/-- Embeds `v1alpha1.CatalogSource` (only the fields this file reads). -/
structure CatalogSource where
  name : String
  ns : String
deriving DecidableEq, Repr

/-- Embeds `v1.OperatorGroup` (the fields this file reads and writes):
`specTargetNamespaces` is `Spec.TargetNamespaces`, `statusNamespaces` is
`Status.Namespaces` (`none` models a nil slice, which the source replaces by
an empty slice before comparing). -/
structure OperatorGroup where
  name : String
  ns : String
  specTargetNamespaces : List String
  statusNamespaces : Option (List String)
deriving DecidableEq, Repr

/-- Embeds `v1alpha1.Approval`. -/
inductive Approval where
  | manual : Approval
  | automatic : Approval
deriving DecidableEq, Repr

/-- Embeds `corev1.ObjectReference` as used for `Status.InstallPlanRef`
(only the `Name` and `Namespace` fields are read). -/
structure InstallPlanRef where
  name : String
  ns : String
deriving DecidableEq, Repr

/-- Embeds `v1alpha1.SubscriptionSpec` (the fields this file sets). -/
structure SubscriptionSpec where
  catalogSource : String
  catalogSourceNamespace : String
  package : String
  channel : String
  startingCSV : String
  installPlanApproval : Approval
deriving DecidableEq, Repr

/-- Embeds `v1alpha1.SubscriptionStatus` (only `InstallPlanRef` is read;
`none` models a nil pointer). -/
structure SubscriptionStatus where
  installPlanRef : Option InstallPlanRef
deriving DecidableEq, Repr

/-- Embeds `v1alpha1.Subscription` (the fields this file uses). -/
structure Subscription where
  name : String
  ns : String
  spec : SubscriptionSpec
  status : SubscriptionStatus
deriving DecidableEq, Repr

/-- Embeds `v1alpha1.InstallPlan`.  `approved` is `Spec.Approved`; every
other field of the object (the rest of the spec, the status, the metadata
besides name/namespace) is abstracted into `rest : ρ`, an arbitrary type,
so that frame properties ("no other field is changed") can be stated for
all shapes of the remaining data. -/
structure InstallPlan (ρ : Type) where
  name : String
  ns : String
  approved : Bool
  rest : ρ
deriving DecidableEq, Repr

/-- Embeds `v1alpha1.ClusterServiceVersion` (name, namespace and the status
phase this workflow waits on). -/
structure ClusterServiceVersion where
  name : String
  ns : String
  phase : String
deriving DecidableEq, Repr

/-- Embeds `operator.InstallMode` (only `TargetNamespaces` is used here). -/
structure InstallMode where
  targetNamespaces : List String
deriving DecidableEq, Repr

/-- Embeds `operator.Configuration` (only `Namespace` is used;
the REST config and client are part of the `Cluster` oracle). -/
structure Configuration where
  ns : String
deriving DecidableEq, Repr

/-- Embeds the `OperatorInstaller` struct. -/
structure OperatorInstaller where
  catalogSourceName : String
  packageName : String
  startingCSV : String
  channel : String
  installMode : InstallMode
  cfg : Configuration
deriving DecidableEq, Repr

/-- Modelled from the spec: `operator.SDKOperatorGroupName`
(package `internal/olm/operator`, not under `src/`), the fixed name given to
SDK-managed operator groups.  Its exact value is irrelevant to the claims;
only that `newSDKOperatorGroup` uses it and `createOperatorGroup` compares
against it. -/
def SDKOperatorGroupName : String := "operator-sdk-og"

/-- Modelled from the spec: `newSDKOperatorGroup(namespace,
withTargetNamespaces(targetNamespaces...))` (sibling file of the same
package, not under `src/`) builds a new SDK-managed OperatorGroup named
`SDKOperatorGroupName` in the given namespace whose spec carries the given
target namespaces; its status namespaces are not yet set. -/
def newSDKOperatorGroup (ns : String) (targetNamespaces : List String) : OperatorGroup :=
  { name := SDKOperatorGroupName
    ns := ns
    specTargetNamespaces := targetNamespaces
    statusNamespaces := none }

/-- Modelled from the spec: `newSubscription(o.StartingCSV, o.cfg.Namespace,
withPackageChannel(o.PackageName, o.Channel, o.StartingCSV),
withCatalogSource(cs.GetName(), o.cfg.Namespace),
withInstallPlanApproval(v1alpha1.ApprovalManual))` (sibling file of the same
package, not under `src/`) builds a Subscription named after the starting CSV
in the configured namespace; each option sets the spec field it names. -/
def buildSubscription (name ns pkg channel startingCSV csName csNamespace : String)
    (approval : Approval) : Subscription :=
  { name := name
    ns := ns
    spec :=
      { catalogSource := csName
        catalogSourceNamespace := csNamespace
        package := pkg
        channel := channel
        startingCSV := startingCSV
        installPlanApproval := approval }
    status := { installPlanRef := none } }

/-- The wrapper a remote call is made under in the source:
`direct` — a plain client call with no surrounding wait/retry;
`poll` — inside a `wait.PollImmediateUntil` condition function;
`retryConflict` — inside the `retry.RetryOnConflict` closure. -/
inductive Wrapper where
  | direct : Wrapper
  | poll : Wrapper
  | retryConflict : Wrapper
deriving DecidableEq, Repr

/-- One remote call performed by the workflow, with its argument and the
wrapper the source makes the call under.  `createCatalogCall` is the
`CatalogCreator.CreateCatalog` interface call (its internals live outside
this file); the rest are the client calls of the helper steps. -/
inductive Event (ρ : Type) where
  | createCatalogCall : String → Event ρ
  | listOGCall : String → Wrapper → Event ρ
  | createOGCall : OperatorGroup → Wrapper → Event ρ
  | createSubCall : Subscription → Wrapper → Event ρ
  | getSubCall : NamespacedName → Wrapper → Event ρ
  | getIPCall : NamespacedName → Wrapper → Event ρ
  | updateIPCall : InstallPlan ρ → Wrapper → Event ρ
  | csvPhaseCall : NamespacedName → Wrapper → Event ρ
  | getCSVCall : NamespacedName → Wrapper → Event ρ
deriving DecidableEq, Repr

/-- The oracle answering the workflow's remote calls.  Calls made inside a
poll or retry loop are indexed by the attempt number, so the oracle can
answer differently over time.  `ipWaitFuel` and `csvWaitFuel` are the number
of poll rounds the context allows before `ctx.Done()` fires (the
`PollImmediateUntil` stop channel), after which the poll returns
`wait.ErrWaitTimeout`.  `newClient` is `olmclient.NewClientForConfig`. -/
structure Cluster (ρ : Type) where
  createCatalog : String → Except Err CatalogSource
  listOperatorGroups : String → Except Err (List OperatorGroup)
  createOG : OperatorGroup → Option Err
  createSub : Subscription → Option Err
  getSub : Nat → NamespacedName → Except Err Subscription
  getIP : Nat → NamespacedName → Except Err (InstallPlan ρ)
  updateIP : Nat → InstallPlan ρ → Option Err
  newClient : Option Err
  getCSVPhase : Nat → NamespacedName → Except Err String
  getCSV : NamespacedName → Except Err ClusterServiceVersion
  ipWaitFuel : Nat
  csvWaitFuel : Nat

variable {ρ : Type}

/-- Embeds `getOperatorGroup` (operator_installer.go:173-189): lists the
operator groups in the configured namespace; no group found is `.ok none`,
exactly one is `.ok (some og)` (Go's `found` boolean is `isSome`), and more
than one is the "more than one operator group" error, as in the source. -/
def getOperatorGroup (o : OperatorInstaller) (c : Cluster ρ) :
    Except Err (Option OperatorGroup) × List (Event ρ) :=
  match c.listOperatorGroups o.cfg.ns with
  | .error e => (.error e, [.listOGCall o.cfg.ns .direct])
  | .ok items =>
    match items with
    | [] => (.ok none, [.listOGCall o.cfg.ns .direct])
    | [og] => (.ok (some og), [.listOGCall o.cfg.ns .direct])
    | _ =>
      (.error (.apiErr ("more than one operator group in namespace " ++ o.cfg.ns)),
        [.listOGCall o.cfg.ns .direct])

/-- The "namespaces %+q do not match desired namespaces %+q" message of
operator_installer.go:148. -/
def ogMismatchMsg (statusNs targetNs : List String) : String :=
  "namespaces " ++ String.intercalate " " statusNs ++
    " do not match desired namespaces " ++ String.intercalate " " targetNs

/-- The error returned at operator_installer.go:150-151 when the existing,
incompatible operator group is the SDK-managed one. -/
def sdkOGMismatchErr (msg pkg : String) : Err :=
  .apiErr ("existing SDK-managed operator group's " ++
    (msg ++ (", please clean up existing operators before running package " ++ pkg)))

/-- The error returned at operator_installer.go:153-154 when the existing,
incompatible operator group is user-managed. -/
def userOGMismatchErr (ogName msg pkg : String) : Err :=
  .apiErr ("existing operator group " ++ (ogName ++ ("'s " ++ (msg ++
    (", please ensure it has the exact namespace set before running package " ++ pkg)))))

/-- The result of `createOperatorGroup`: the returned error (if any), the
remote calls performed, and the contents of the installer's own
`InstallMode.TargetNamespaces` backing array after the call (Go slices
alias, so an in-place sort of that slice would show up here; the source
sorts only its local copy). -/
structure OGResult (ρ : Type) where
  err : Option Err
  events : List (Event ρ)
  finalTargetNamespaces : List String
deriving DecidableEq, Repr

/-- Embeds `createOperatorGroup` (operator_installer.go:128-168).
Line 129-130 copy `o.InstallMode.TargetNamespaces` into a fresh slice
`targetNamespaces`; all later writes (the in-place `sort.Strings` at line
146) hit the copy, which the `let` rebinding below makes explicit, so
`finalTargetNamespaces` carries the installer's slice through unchanged.
When a single group is found, a nil status-namespace slice is replaced by an
empty one, both sides are sorted, and any difference is an error (a special
message for the SDK-managed group); when none is found, a new SDK-managed
group is created with the (unsorted, as in the source) copied target
namespaces. -/
def createOperatorGroup (o : OperatorInstaller) (c : Cluster ρ) : OGResult ρ :=
  let targetNamespaces := o.installMode.targetNamespaces
  match getOperatorGroup o c with
  | (.error e, tr) =>
    { err := some e, events := tr, finalTargetNamespaces := o.installMode.targetNamespaces }
  | (.ok found, tr) =>
    match found with
    | some og =>
      let statusNs :=
        match og.statusNamespaces with
        | none => []
        | some l => l
      let statusNsSorted := sortStrings statusNs
      let targetNsSorted := sortStrings targetNamespaces
      if statusNsSorted = targetNsSorted then
        { err := none, events := tr, finalTargetNamespaces := o.installMode.targetNamespaces }
      else
        let msg := ogMismatchMsg statusNsSorted targetNsSorted
        if og.name = SDKOperatorGroupName then
          { err := some (sdkOGMismatchErr msg o.packageName)
            events := tr
            finalTargetNamespaces := o.installMode.targetNamespaces }
        else
          { err := some (userOGMismatchErr og.name msg o.packageName)
            events := tr
            finalTargetNamespaces := o.installMode.targetNamespaces }
    | none =>
      let og := newSDKOperatorGroup o.cfg.ns targetNamespaces
      match c.createOG og with
      | some e =>
        { err := some (.wrapw "error creating OperatorGroup" e)
          events := tr ++ [.createOGCall og .direct]
          finalTargetNamespaces := o.installMode.targetNamespaces }
      | none =>
        { err := none
          events := tr ++ [.createOGCall og .direct]
          finalTargetNamespaces := o.installMode.targetNamespaces }

/-- Embeds `createSubscription` (operator_installer.go:191-203): builds the
subscription (named after the starting CSV, Manual approval, package/channel/
starting CSV from the installer, catalog source name from the created
catalog, catalog source namespace the configured namespace) and creates it
with a direct client call. -/
def createSubscription (o : OperatorInstaller) (c : Cluster ρ) (cs : CatalogSource) :
    Except Err Subscription × List (Event ρ) :=
  let sub := buildSubscription o.startingCSV o.cfg.ns o.packageName o.channel
    o.startingCSV cs.name o.cfg.ns Approval.manual
  match c.createSub sub with
  | some e => (.error (.wrapw "error creating subscription" e), [.createSubCall sub .direct])
  | none => (.ok sub, [.createSubCall sub .direct])

/-- One round of the `ipCheck` condition function of `waitForInstallPlan`
(operator_installer.go:266-274): `Get` the subscription by key into the
subscription variable (in Go the refresh is in place; here the updated value
is returned), done when `Status.InstallPlanRef` is non-nil.  A failed `Get`
leaves the subscription variable as it was. -/
def ipCheckStep (c : Cluster ρ) (key : NamespacedName) (i : Nat) (sub : Subscription) :
    Except Err Bool × Subscription × List (Event ρ) :=
  match c.getSub i key with
  | .error e => (.error e, sub, [.getSubCall key .poll])
  | .ok s => (.ok s.status.installPlanRef.isSome, s, [.getSubCall key .poll])

/-- The `wait.PollImmediateUntil(200*time.Millisecond, ipCheck, ctx.Done())`
loop of operator_installer.go:276, with the rounds the context allows as
fuel: the condition runs immediately and then once per interval until it
returns true (success), returns an error (that error), or the context is
done (`wait.ErrWaitTimeout`).  Also threads the in-place-refreshed
subscription and collects the poll's remote calls. -/
def pollSub (c : Cluster ρ) (key : NamespacedName) :
    Nat → Nat → Subscription → (Option Err × Subscription) × List (Event ρ)
  | 0, _, sub => ((some .waitTimeout, sub), [])
  | fuel + 1, i, sub =>
    match ipCheckStep c key i sub with
    | (.error e, s, tr) => ((some e, s), tr)
    | (.ok true, s, tr) => ((none, s), tr)
    | (.ok false, s, tr) =>
      match pollSub c key fuel (i + 1) s with
      | ((r, s2), tr2) => ((r, s2), tr ++ tr2)

/-- Embeds `waitForInstallPlan` (operator_installer.go:260-280): polls the
subscription under its own key until its install-plan reference appears;
any failure is wrapped into the "install plan is not available for the
subscription" error.  The returned subscription is the final value of the
in-place-refreshed `sub`. -/
def waitForInstallPlan (_o : OperatorInstaller) (c : Cluster ρ) (sub : Subscription) :
    (Option Err × Subscription) × List (Event ρ) :=
  let key : NamespacedName := { name := sub.name, ns := sub.ns }
  match pollSub c key c.ipWaitFuel 0 sub with
  | ((some e, s), tr) =>
    ((some (.wrapv ("install plan is not available for the subscription " ++ s.name) e), s), tr)
  | ((none, s), tr) => ((none, s), tr)

/-- One attempt of the `retry.RetryOnConflict` closure of
`approveInstallPlan` (operator_installer.go:240-249): `Get` the install plan
by key (a `%v`-wrapped error on failure), set `Spec.Approved` to true
changing nothing else, and `Update` it (a `%v`-wrapped error on failure). -/
def approveAttempt (c : Cluster ρ) (ipKey : NamespacedName) (i : Nat) :
    Option Err × List (Event ρ) :=
  match c.getIP i ipKey with
  | .error e =>
    (some (.wrapv "error getting install plan" e), [.getIPCall ipKey .retryConflict])
  | .ok ip =>
    let approved := { ip with approved := true }
    match c.updateIP i approved with
    | some e =>
      (some (.wrapv "error approving install plan" e),
        [.getIPCall ipKey .retryConflict, .updateIPCall approved .retryConflict])
    | none =>
      (none, [.getIPCall ipKey .retryConflict, .updateIPCall approved .retryConflict])

/-- `retry.DefaultBackoff.Steps` from `k8s.io/client-go/util/retry`: the
default backoff runs the closure at most 4 times. -/
def DefaultBackoffSteps : Nat := 4

/-- Embeds `wait.ExponentialBackoff` as driven by `retry.OnError`: run the
closure up to `steps` times; success stops with no error, a non-retriable
error stops with that error, a retriable error becomes `lastErr` and the
loop continues; exhaustion yields `wait.ErrWaitTimeout`.  Returns the pair
(ExponentialBackoff's error, lastErr) plus the collected remote calls. -/
def expBackoffTr (retriable : Err → Bool) (fn : Nat → Option Err × List (Event ρ)) :
    Nat → Nat → Option Err → (Option Err × Option Err) × List (Event ρ)
  | 0, _, lastErr => ((some .waitTimeout, lastErr), [])
  | steps + 1, i, lastErr =>
    match fn i with
    | (none, tr) => ((none, lastErr), tr)
    | (some e, tr) =>
      if retriable e then
        match expBackoffTr retriable fn steps (i + 1) (some e) with
        | ((r, le), tr2) => ((r, le), tr ++ tr2)
      else ((some e, lastErr), tr)

/-- Embeds `retry.RetryOnConflict(retry.DefaultBackoff, fn)` =
`retry.OnError(retry.DefaultBackoff, errors.IsConflict, fn)`: run the
backoff loop retrying exactly the conflict errors; if the loop's error is
`wait.ErrWaitTimeout` (exhaustion) replace it by the last conflict error
seen, as `OnError` does. -/
def retryOnConflictTr (fn : Nat → Option Err × List (Event ρ)) :
    Option Err × List (Event ρ) :=
  match expBackoffTr Err.isConflict fn DefaultBackoffSteps 0 none with
  | ((some .waitTimeout, lastErr), tr) => (lastErr, tr)
  | ((r, _), tr) => (r, tr)

/-- Embeds `approveInstallPlan` (operator_installer.go:232-257).  The key is
built from `sub.Status.InstallPlanRef.Name/.Namespace` with no nil check:
a nil reference is a nil-pointer dereference, modelled as the `none`
result (the Go function panics and returns nothing).  Otherwise the
conflict-retry loop runs the get-approve-update attempt. -/
def approveInstallPlan (c : Cluster ρ) (sub : Subscription) :
    Option (Option Err × List (Event ρ)) :=
  match sub.status.installPlanRef with
  | none => none
  | some ref =>
    let ipKey : NamespacedName := { name := ref.name, ns := ref.ns }
    some (retryOnConflictTr (approveAttempt c ipKey))

/-- One round of the CSV-phase condition.  Modelled from the spec:
`olmclient.DoCSVWait` (package `internal/olm/client`, not under `src/`)
"waits for the resulting application descriptor to reach a ready state" —
it polls the ClusterServiceVersion at the key and is done when its phase is
`Succeeded`. -/
def csvPhaseStep (c : Cluster ρ) (key : NamespacedName) (i : Nat) :
    Except Err Bool × List (Event ρ) :=
  match c.getCSVPhase i key with
  | .error e => (.error e, [.csvPhaseCall key .poll])
  | .ok phase => (.ok (phase = "Succeeded"), [.csvPhaseCall key .poll])

/-- Modelled from the spec: the poll loop of `olmclient.DoCSVWait` (not
under `src/`), a fixed-interval condition poll like the others, with the
rounds the context allows as fuel. -/
def doCSVWait (c : Cluster ρ) (key : NamespacedName) :
    Nat → Nat → Option Err × List (Event ρ)
  | 0, _ => (some .waitTimeout, [])
  | fuel + 1, i =>
    match csvPhaseStep c key i with
    | (.error e, tr) => (some e, tr)
    | (.ok true, tr) => (none, tr)
    | (.ok false, tr) =>
      match doCSVWait c key fuel (i + 1) with
      | (r, tr2) => (r, tr ++ tr2)

/-- Embeds `getInstalledCSV` (operator_installer.go:205-228): build the OLM
client, wait for the CSV named `StartingCSV` in the configured namespace to
reach the `Succeeded` phase, then `Get` and return the CSV under exactly
that key; every failure returns `nil` and an error. -/
def getInstalledCSV (o : OperatorInstaller) (c : Cluster ρ) :
    Except Err ClusterServiceVersion × List (Event ρ) :=
  match c.newClient with
  | some e => (.error e, [])
  | none =>
    let nn : NamespacedName := { name := o.startingCSV, ns := o.cfg.ns }
    match doCSVWait c nn c.csvWaitFuel 0 with
    | (some e, tr) => (.error (.wrapw "error waiting for CSV to install" e), tr)
    | (none, tr) =>
      match c.getCSV nn with
      | .error e => (.error (.wrapw "error getting installed CSV" e), tr ++ [.getCSVCall nn .direct])
      | .ok csv => (.ok csv, tr ++ [.getCSVCall nn .direct])

/-- Embeds `InstallOperator` (operator_installer.go:51-96): create the
catalog source, ensure the operator group, create the subscription, wait
for the install plan reference, approve the install plan, wait for and
return the installed CSV; each step runs only after the previous returned
no error, and a step's error is returned at once with a nil CSV.  The
`none` result models the nil-pointer panic of `approveInstallPlan` (proved
unreachable below). -/
def installOperator (o : OperatorInstaller) (c : Cluster ρ) :
    Option (Except Err ClusterServiceVersion × List (Event ρ)) :=
  match c.createCatalog o.catalogSourceName with
  | .error e => some (.error (.wrapv "create catalog" e), [.createCatalogCall o.catalogSourceName])
  | .ok cs =>
    let tr0 : List (Event ρ) := [.createCatalogCall o.catalogSourceName]
    match createOperatorGroup o c with
    | { err := some e, events := tr1, finalTargetNamespaces := _ } =>
      some (.error e, tr0 ++ tr1)
    | { err := none, events := tr1, finalTargetNamespaces := _ } =>
      match createSubscription o c cs with
      | (.error e, tr2) => some (.error e, tr0 ++ tr1 ++ tr2)
      | (.ok sub, tr2) =>
        match waitForInstallPlan o c sub with
        | ((some e, _), tr3) => some (.error e, tr0 ++ tr1 ++ tr2 ++ tr3)
        | ((none, s), tr3) =>
          match approveInstallPlan c s with
          | none => none
          | some (some e, tr4) => some (.error e, tr0 ++ tr1 ++ tr2 ++ tr3 ++ tr4)
          | some (none, tr4) =>
            match getInstalledCSV o c with
            | (.error e, tr5) => some (.error e, tr0 ++ tr1 ++ tr2 ++ tr3 ++ tr4 ++ tr5)
            | (.ok csv, tr5) => some (.ok csv, tr0 ++ tr1 ++ tr2 ++ tr3 ++ tr4 ++ tr5)

/-! ### Concrete fixtures used by witnesses -/

/-- A concrete installer configuration. -/
def demoInstaller : OperatorInstaller :=
  { catalogSourceName := "cs", packageName := "pkg", startingCSV := "csv-v1",
    channel := "stable", installMode := { targetNamespaces := ["ns1"] },
    cfg := { ns := "ns1" } }

/-- The subscription `createSubscription` builds for `demoInstaller` and a
catalog source named "cs". -/
def demoBuiltSub : Subscription :=
  buildSubscription "csv-v1" "ns1" "pkg" "stable" "csv-v1" "cs" "ns1" Approval.manual

/-- A concrete catalog source. -/
def demoCatalog : CatalogSource := { name := "cs", ns := "ns1" }

/-- The subscription as refreshed by `okCluster.getSub`: the built
subscription with its install-plan reference populated. -/
def demoFetchedSub : Subscription :=
  { demoBuiltSub with status := { installPlanRef := some { name := "ip-1", ns := "ns1" } } }

/-- A cluster oracle on which every remote call succeeds at once. -/
def okCluster : Cluster Nat :=
  { createCatalog := fun n => .ok { name := n, ns := "ns1" }
    listOperatorGroups := fun _ => .ok []
    createOG := fun _ => none
    createSub := fun _ => none
    getSub := fun _ k => .ok
      { demoFetchedSub with name := k.name, ns := k.ns }
    getIP := fun _ k => .ok { name := k.name, ns := k.ns, approved := false, rest := 0 }
    updateIP := fun _ _ => none
    newClient := none
    getCSVPhase := fun _ _ => .ok "Succeeded"
    getCSV := fun nn => .ok { name := nn.name, ns := nn.ns, phase := "Succeeded" }
    ipWaitFuel := 3
    csvWaitFuel := 3 }

/-! ### Helper lemmas -/

/-- A successful poll in `waitForInstallPlan` ends on a fetched subscription
whose install-plan reference is populated. -/
lemma pollSub_none_ref {c : Cluster ρ} {key : NamespacedName} :
    ∀ (fuel i : Nat) (sub s : Subscription) (tr : List (Event ρ)),
      pollSub c key fuel i sub = ((none, s), tr) →
      s.status.installPlanRef.isSome = true := by
  intro fuel
  induction fuel with
  | zero => intro i sub s tr h; simp [pollSub] at h
  | succ n ih =>
    intro i sub s tr h
    unfold pollSub at h
    cases hstep : ipCheckStep c key i sub with
    | mk fst rest =>
      obtain ⟨s1, tr1⟩ := rest
      rw [hstep] at h
      match fst, h with
      | .error e, h => simp at h
      | .ok true, h =>
        simp at h
        obtain ⟨h1, h2⟩ := h
        unfold ipCheckStep at hstep
        cases hget : c.getSub i key with
        | error e => rw [hget] at hstep; simp at hstep
        | ok s2 =>
          rw [hget] at hstep
          simp at hstep
          obtain ⟨hb, hs, _⟩ := hstep
          rw [← h1, ← hs, hb]
      | .ok false, h =>
        simp at h
        cases hrec : pollSub c key n (i + 1) s1 with
        | mk p tr2 =>
          obtain ⟨r, s2⟩ := p
          rw [hrec] at h
          simp at h
          obtain ⟨⟨hr, hs⟩, _⟩ := h
          subst hr hs
          exact ih (i + 1) s1 s2 tr2 hrec

/-- A successful `waitForInstallPlan` returns a subscription with a
populated install-plan reference. -/
lemma waitForInstallPlan_none_ref {o : OperatorInstaller} {c : Cluster ρ}
    {sub s : Subscription} {tr : List (Event ρ)}
    (h : waitForInstallPlan o c sub = ((none, s), tr)) :
    s.status.installPlanRef.isSome = true := by
  unfold waitForInstallPlan at h
  dsimp only at h
  cases hpoll : pollSub c { name := sub.name, ns := sub.ns } c.ipWaitFuel 0 sub with
  | mk p tr1 =>
    obtain ⟨r, s1⟩ := p
    rw [hpoll] at h
    cases r with
    | some e => simp at h
    | none =>
      simp at h
      obtain ⟨hs, htr⟩ := h
      subst hs htr
      exact pollSub_none_ref c.ipWaitFuel 0 sub s1 tr1 hpoll

/-! ### Claims -/

/-- C9: `approveInstallPlan` dereferences `sub.Status.InstallPlanRef`
without a nil check; this cannot fail when `waitForInstallPlan` previously
returned success on the same (in-place refreshed) subscription object,
because its poll only reports done when the reference is non-nil.  The
`none` result of `approveInstallPlan` models the nil-pointer panic. -/
theorem approveInstallPlan_no_panic_after_wait {ρ : Type} (o : OperatorInstaller)
    (c : Cluster ρ) (sub s : Subscription) (tr : List (Event ρ))
    (h : waitForInstallPlan o c sub = ((none, s), tr)) :
    s.status.installPlanRef.isSome = true ∧ approveInstallPlan c s ≠ none := by
  have href := waitForInstallPlan_none_ref h
  refine ⟨href, ?_⟩
  unfold approveInstallPlan
  cases hr : s.status.installPlanRef with
  | none => rw [hr] at href; simp at href
  | some ref => simp

/-- Witness for C9 at a concrete run: on `okCluster`, the wait succeeds and
the subsequent approval cannot panic. -/
theorem approveInstallPlan_no_panic_after_wait_witness :
    demoFetchedSub.status.installPlanRef.isSome = true ∧
      approveInstallPlan okCluster demoFetchedSub ≠ none :=
  approveInstallPlan_no_panic_after_wait demoInstaller okCluster demoBuiltSub
    demoFetchedSub [Event.getSubCall { name := "csv-v1", ns := "ns1" } Wrapper.poll]
    (by decide)

/-- C10: `createOperatorGroup` never mutates the installer's configured
`InstallMode.TargetNamespaces`: the compatibility check copies the slice
before sorting, so the installer's slice holds the same elements in the
same order after every call. -/
theorem createOperatorGroup_frame {ρ : Type} (o : OperatorInstaller) (c : Cluster ρ) :
    (createOperatorGroup o c).finalTargetNamespaces = o.installMode.targetNamespaces := by
  unfold createOperatorGroup
  cases h : getOperatorGroup o c with
  | mk r tr =>
    cases r with
    | error e => simp
    | ok found =>
      cases found with
      | some og => dsimp only; split <;> (try split) <;> rfl
      | none => dsimp only; split <;> rfl

/-- C4: every subscription handed to the client's `Create` by
`createSubscription` has Manual install-plan approval and references the
given catalog source's name together with the configured package, channel
and starting CSV; on success the returned subscription is that object. -/
theorem createSubscription_fields {ρ : Type} (o : OperatorInstaller) (c : Cluster ρ)
    (cs : CatalogSource) (sub : Subscription) (w : Wrapper)
    (h : Event.createSubCall sub w ∈ (createSubscription o c cs).2) :
    sub.spec.installPlanApproval = Approval.manual ∧
    sub.spec.catalogSource = cs.name ∧
    sub.spec.package = o.packageName ∧
    sub.spec.channel = o.channel ∧
    sub.spec.startingCSV = o.startingCSV ∧
    (∀ s, (createSubscription o c cs).1 = .ok s → s = sub) := by
  unfold createSubscription at h ⊢
  dsimp only at h ⊢
  cases hc : c.createSub (buildSubscription o.startingCSV o.cfg.ns o.packageName o.channel
      o.startingCSV cs.name o.cfg.ns Approval.manual) with
  | some e =>
    rw [hc] at h
    simp at h
    obtain ⟨hsub, _⟩ := h
    subst hsub
    refine ⟨rfl, rfl, rfl, rfl, rfl, ?_⟩
    intro s hs
    simp at hs
  | none =>
    rw [hc] at h
    simp at h
    obtain ⟨hsub, _⟩ := h
    subst hsub
    refine ⟨rfl, rfl, rfl, rfl, rfl, ?_⟩
    intro s hs
    simp at hs
    exact hs.symm

/-- Witness for C4 at a concrete run. -/
theorem createSubscription_fields_witness :
    demoBuiltSub.spec.installPlanApproval = Approval.manual ∧
    demoBuiltSub.spec.catalogSource = demoCatalog.name ∧
    demoBuiltSub.spec.package = demoInstaller.packageName ∧
    demoBuiltSub.spec.channel = demoInstaller.channel ∧
    demoBuiltSub.spec.startingCSV = demoInstaller.startingCSV ∧
    (∀ s, (createSubscription demoInstaller okCluster demoCatalog).1 = .ok s →
      s = demoBuiltSub) :=
  createSubscription_fields demoInstaller okCluster demoCatalog demoBuiltSub
    Wrapper.direct (by decide)

/-- The two operator-group mismatch errors are always distinct: the
SDK-managed message and the user-managed message differ in their fixed
prefixes, whatever the dynamic parts are. -/
lemma sdkOGMismatchErr_ne_userOGMismatchErr (m p n m2 p2 : String) :
    sdkOGMismatchErr m p ≠ userOGMismatchErr n m2 p2 := by
  intro h
  simp only [sdkOGMismatchErr, userOGMismatchErr, Err.apiErr.injEq] at h
  have hd := congrArg (fun s => s.data.take 12) h
  simp only [String.data_append] at hd
  rw [List.take_append_of_le_length (by decide),
    List.take_append_of_le_length (by decide)] at hd
  exact absurd hd (by decide)

/-- An existing user-managed operator group whose status namespaces match
the desired `["ns1"]`. -/
def matchOG : OperatorGroup :=
  { name := "my-og", ns := "ns1", specTargetNamespaces := ["ns1"],
    statusNamespaces := some ["ns1"] }

/-- An existing user-managed operator group whose status namespaces differ
from the desired `["ns1"]`. -/
def mismatchOG : OperatorGroup :=
  { name := "my-og", ns := "ns1", specTargetNamespaces := ["other"],
    statusNamespaces := some ["other"] }

/-- A cluster oracle whose namespace already holds one operator group whose
status namespaces match the desired target namespaces. -/
def matchOGCluster : Cluster Nat :=
  { okCluster with listOperatorGroups := fun _ => .ok [matchOG] }

/-- A cluster oracle whose namespace already holds one operator group whose
status namespaces do not match the desired target namespaces. -/
def mismatchOGCluster : Cluster Nat :=
  { okCluster with listOperatorGroups := fun _ => .ok [mismatchOG] }

/-- C2: `createOperatorGroup` case analysis.  (a) If no operator group
exists in the configured namespace, a new SDK-managed group with the
configured target namespaces is created (and the call's error is exactly
the creation call's error).  (b) If exactly one exists and its status
namespaces, both sides sorted, equal the desired target namespaces, it is
reused: no error, nothing created.  (c) If exactly one exists and the
sorted namespace sets differ, an error is returned and nothing is created,
with a distinct message when the group is the SDK-managed one. -/
theorem createOperatorGroup_cases {ρ : Type} (o : OperatorInstaller) (c : Cluster ρ) :
    (c.listOperatorGroups o.cfg.ns = .ok [] →
      (createOperatorGroup o c).events =
        [Event.listOGCall o.cfg.ns Wrapper.direct,
          Event.createOGCall (newSDKOperatorGroup o.cfg.ns o.installMode.targetNamespaces)
            Wrapper.direct] ∧
      (newSDKOperatorGroup o.cfg.ns o.installMode.targetNamespaces).name =
        SDKOperatorGroupName ∧
      (newSDKOperatorGroup o.cfg.ns o.installMode.targetNamespaces).ns = o.cfg.ns ∧
      (newSDKOperatorGroup o.cfg.ns
        o.installMode.targetNamespaces).specTargetNamespaces =
          o.installMode.targetNamespaces ∧
      ((createOperatorGroup o c).err = none ↔
        c.createOG (newSDKOperatorGroup o.cfg.ns o.installMode.targetNamespaces) = none)) ∧
    (∀ og, c.listOperatorGroups o.cfg.ns = .ok [og] →
      sortStrings (og.statusNamespaces.getD []) =
          sortStrings o.installMode.targetNamespaces →
      (createOperatorGroup o c).err = none ∧
      (createOperatorGroup o c).events = [Event.listOGCall o.cfg.ns Wrapper.direct]) ∧
    (∀ og, c.listOperatorGroups o.cfg.ns = .ok [og] →
      sortStrings (og.statusNamespaces.getD []) ≠
          sortStrings o.installMode.targetNamespaces →
      (createOperatorGroup o c).events = [Event.listOGCall o.cfg.ns Wrapper.direct] ∧
      (createOperatorGroup o c).err =
        some (if og.name = SDKOperatorGroupName
          then sdkOGMismatchErr
            (ogMismatchMsg (sortStrings (og.statusNamespaces.getD []))
              (sortStrings o.installMode.targetNamespaces)) o.packageName
          else userOGMismatchErr og.name
            (ogMismatchMsg (sortStrings (og.statusNamespaces.getD []))
              (sortStrings o.installMode.targetNamespaces)) o.packageName) ∧
      (∀ m p n m2 p2, sdkOGMismatchErr m p ≠ userOGMismatchErr n m2 p2)) := by
  refine ⟨?_, ?_, ?_⟩
  · intro hl
    unfold createOperatorGroup getOperatorGroup
    rw [hl]
    dsimp only
    cases hcreate : c.createOG (newSDKOperatorGroup o.cfg.ns o.installMode.targetNamespaces) with
    | some e => simp [newSDKOperatorGroup]
    | none => simp [newSDKOperatorGroup]
  · intro og hl hm
    unfold createOperatorGroup getOperatorGroup
    rw [hl]
    dsimp only
    cases hsn : og.statusNamespaces with
    | none =>
      rw [hsn] at hm
      simp only [Option.getD_none] at hm
      simp [hm]
    | some l =>
      rw [hsn] at hm
      simp only [Option.getD_some] at hm
      simp [hm]
  · intro og hl hm
    unfold createOperatorGroup getOperatorGroup
    rw [hl]
    dsimp only
    cases hsn : og.statusNamespaces with
    | none =>
      rw [hsn] at hm
      simp only [Option.getD_none] at hm
      refine ⟨?_, ?_, sdkOGMismatchErr_ne_userOGMismatchErr⟩ <;>
        by_cases hname : og.name = SDKOperatorGroupName <;> simp [hm, hname]
    | some l =>
      rw [hsn] at hm
      simp only [Option.getD_some] at hm
      refine ⟨?_, ?_, sdkOGMismatchErr_ne_userOGMismatchErr⟩ <;>
        by_cases hname : og.name = SDKOperatorGroupName <;> simp [hm, hname]

/-- Witness for C2: each of the three cases, exercised on a concrete
cluster (empty namespace, one matching group, one mismatching group). -/
theorem createOperatorGroup_cases_witness :
    ((createOperatorGroup demoInstaller okCluster).events =
        [Event.listOGCall "ns1" Wrapper.direct,
          Event.createOGCall (newSDKOperatorGroup "ns1" ["ns1"]) Wrapper.direct] ∧
      (newSDKOperatorGroup "ns1" ["ns1"]).name = SDKOperatorGroupName ∧
      (newSDKOperatorGroup "ns1" ["ns1"]).ns = "ns1" ∧
      (newSDKOperatorGroup "ns1" ["ns1"]).specTargetNamespaces = ["ns1"] ∧
      ((createOperatorGroup demoInstaller okCluster).err = none ↔
        okCluster.createOG (newSDKOperatorGroup "ns1" ["ns1"]) = none)) ∧
    ((createOperatorGroup demoInstaller matchOGCluster).err = none ∧
      (createOperatorGroup demoInstaller matchOGCluster).events =
        [Event.listOGCall "ns1" Wrapper.direct]) ∧
    ((createOperatorGroup demoInstaller mismatchOGCluster).events =
      [Event.listOGCall "ns1" Wrapper.direct]) := by
  have h := createOperatorGroup_cases demoInstaller mismatchOGCluster
  exact ⟨(createOperatorGroup_cases demoInstaller okCluster).1 (by rfl),
    (createOperatorGroup_cases demoInstaller matchOGCluster).2.1 matchOG
      (by rfl) (by rfl),
    (h.2.2 mismatchOG (by rfl) (by decide)).1⟩

/-- A successful CSV wait means some poll round observed the `Succeeded`
phase. -/
lemma doCSVWait_none_phase {c : Cluster ρ} {key : NamespacedName} :
    ∀ (fuel i : Nat) (tr : List (Event ρ)), doCSVWait c key fuel i = (none, tr) →
      ∃ j, i ≤ j ∧ j < i + fuel ∧ c.getCSVPhase j key = .ok "Succeeded" := by
  intro fuel
  induction fuel with
  | zero => intro i tr h; simp [doCSVWait] at h
  | succ n ih =>
    intro i tr h
    unfold doCSVWait at h
    cases hstep : csvPhaseStep c key i with
    | mk r tr1 =>
      rw [hstep] at h
      match r, h with
      | .error e, h => simp at h
      | .ok true, h =>
        unfold csvPhaseStep at hstep
        cases hph : c.getCSVPhase i key with
        | error e => rw [hph] at hstep; simp at hstep
        | ok phase =>
          rw [hph] at hstep
          simp at hstep
          obtain ⟨hb, _⟩ := hstep
          refine ⟨i, le_refl i, by omega, ?_⟩
          rw [hph, hb]
      | .ok false, h =>
        cases hrec : doCSVWait c key n (i + 1) with
        | mk r2 tr2 =>
          rw [hrec] at h
          simp at h
          obtain ⟨hr, _⟩ := h
          subst hr
          obtain ⟨j, hj1, hj2, hj3⟩ := ih (i + 1) tr2 hrec
          exact ⟨j, by omega, by omega, hj3⟩

/-- C3: `getInstalledCSV` returns a ClusterServiceVersion only after the
CSV named `StartingCSV` in the configured namespace was observed in the
`Succeeded` phase, and the returned value is the CSV fetched under exactly
that name and namespace; when the client construction, the wait, or the
final fetch fails, it returns nil (`Except.error`) together with that
error. -/
theorem getInstalledCSV_spec {ρ : Type} (o : OperatorInstaller) (c : Cluster ρ) :
    (∀ csv tr, getInstalledCSV o c = (.ok csv, tr) →
      (∃ j, j < c.csvWaitFuel ∧
        c.getCSVPhase j { name := o.startingCSV, ns := o.cfg.ns } = .ok "Succeeded") ∧
      c.getCSV { name := o.startingCSV, ns := o.cfg.ns } = .ok csv) ∧
    (∀ e, c.newClient = some e → (getInstalledCSV o c).1 = .error e) ∧
    (∀ e tr, c.newClient = none →
      doCSVWait c { name := o.startingCSV, ns := o.cfg.ns } c.csvWaitFuel 0 = (some e, tr) →
      (getInstalledCSV o c).1 = .error (.wrapw "error waiting for CSV to install" e)) ∧
    (∀ e tr, c.newClient = none →
      doCSVWait c { name := o.startingCSV, ns := o.cfg.ns } c.csvWaitFuel 0 = (none, tr) →
      c.getCSV { name := o.startingCSV, ns := o.cfg.ns } = .error e →
      (getInstalledCSV o c).1 = .error (.wrapw "error getting installed CSV" e)) := by
  refine ⟨?_, ?_, ?_, ?_⟩
  · intro csv tr h
    unfold getInstalledCSV at h
    cases hnc : c.newClient with
    | some e => rw [hnc] at h; simp at h
    | none =>
      rw [hnc] at h
      dsimp only at h
      cases hw : doCSVWait c { name := o.startingCSV, ns := o.cfg.ns } c.csvWaitFuel 0 with
      | mk r trw =>
        rw [hw] at h
        match r, h with
        | some e, h => simp at h
        | none, h =>
          cases hg : c.getCSV { name := o.startingCSV, ns := o.cfg.ns } with
          | error e => rw [hg] at h; simp at h
          | ok csv2 =>
            rw [hg] at h
            simp at h
            obtain ⟨hcsv, _⟩ := h
            subst hcsv
            obtain ⟨j, _, hj2, hj3⟩ := doCSVWait_none_phase c.csvWaitFuel 0 trw hw
            exact ⟨⟨j, by omega, hj3⟩, rfl⟩
  · intro e hnc
    unfold getInstalledCSV
    rw [hnc]
  · intro e tr hnc hw
    unfold getInstalledCSV
    rw [hnc]
    dsimp only
    rw [hw]
  · intro e tr hnc hw hg
    unfold getInstalledCSV
    rw [hnc]
    dsimp only
    rw [hw, hg]

/-- Witness for C3 at a concrete run on the all-successful cluster. -/
theorem getInstalledCSV_spec_witness :
    ((∃ j, j < okCluster.csvWaitFuel ∧
        okCluster.getCSVPhase j { name := "csv-v1", ns := "ns1" } = .ok "Succeeded") ∧
      okCluster.getCSV { name := "csv-v1", ns := "ns1" } =
        .ok { name := "csv-v1", ns := "ns1", phase := "Succeeded" }) ∧
    (getInstalledCSV demoInstaller okCluster).1 =
      .ok { name := "csv-v1", ns := "ns1", phase := "Succeeded" } :=
  ⟨(getInstalledCSV_spec demoInstaller okCluster).1
      { name := "csv-v1", ns := "ns1", phase := "Succeeded" }
      [Event.csvPhaseCall { name := "csv-v1", ns := "ns1" } Wrapper.poll,
        Event.getCSVCall { name := "csv-v1", ns := "ns1" } Wrapper.direct]
      (by rfl),
    by rfl⟩

/-- Recognises the install-plan `Get` events; each retry attempt performs
exactly one, so counting them counts the attempts. -/
def isGetIPEv : Event ρ → Bool
  | .getIPCall _ _ => true
  | _ => false

/-- Every event in the backoff loop's trace comes from some attempt that
ran. -/
lemma mem_expBackoffTr {R : Err → Bool} {fn : Nat → Option Err × List (Event ρ)} :
    ∀ (steps i : Nat) (le : Option Err) (ev : Event ρ),
      ev ∈ (expBackoffTr R fn steps i le).2 →
      ∃ j, i ≤ j ∧ j < i + steps ∧ ev ∈ (fn j).2 := by
  intro steps
  induction steps with
  | zero => intro i le ev h; simp [expBackoffTr] at h
  | succ n ih =>
    intro i le ev h
    unfold expBackoffTr at h
    cases hfn : fn i with
    | mk r tr1 =>
      rw [hfn] at h
      match r, h with
      | none, h =>
        refine ⟨i, le_refl i, by omega, ?_⟩
        rw [hfn]
        exact h
      | some e, h =>
        dsimp only at h
        by_cases hR : R e
        · rw [if_pos hR] at h
          cases hrec : expBackoffTr R fn n (i + 1) (some e) with
          | mk p tr2 =>
            obtain ⟨r2, le2⟩ := p
            rw [hrec] at h
            simp at h
            cases h with
            | inl h =>
              refine ⟨i, le_refl i, by omega, ?_⟩
              rw [hfn]
              exact h
            | inr h =>
              obtain ⟨j, hj1, hj2, hj3⟩ := ih (i + 1) (some e) ev (by rw [hrec]; exact h)
              exact ⟨j, by omega, by omega, hj3⟩
        · rw [if_neg hR] at h
          refine ⟨i, le_refl i, by omega, ?_⟩
          rw [hfn]
          exact h

/-- The backoff loop runs the closure at most `steps` times: if each
attempt's trace counts one under `p`, the whole trace counts at most
`steps`. -/
lemma countP_expBackoffTr_le {R : Err → Bool} {fn : Nat → Option Err × List (Event ρ)}
    {p : Event ρ → Bool} (hfn : ∀ j, List.countP p (fn j).2 = 1) :
    ∀ (steps i : Nat) (le : Option Err),
      List.countP p (expBackoffTr R fn steps i le).2 ≤ steps := by
  intro steps
  induction steps with
  | zero => intro i le; simp [expBackoffTr]
  | succ n ih =>
    intro i le
    unfold expBackoffTr
    cases hfn2 : fn i with
    | mk r tr1 =>
      match r with
      | none =>
        dsimp only
        have := hfn i
        rw [hfn2] at this
        simp at this
        omega
      | some e =>
        dsimp only
        by_cases hR : R e
        · rw [if_pos hR]
          cases hrec : expBackoffTr R fn n (i + 1) (some e) with
          | mk p2 tr2 =>
            obtain ⟨r2, le2⟩ := p2
            dsimp only
            rw [List.countP_append]
            have h1 := hfn i
            rw [hfn2] at h1
            simp at h1
            have h2 := ih (i + 1) (some e)
            rw [hrec] at h2
            simp at h2 ⊢
            omega
        · rw [if_neg hR]
          dsimp only
          have := hfn i
          rw [hfn2] at this
          simp at this
          omega

/-- If the backoff loop ran attempt `i + k + 1` (the trace counts more than
`k + 1` attempts), attempt `i + k` returned a retriable error. -/
lemma expBackoffTr_retry_needs_retriable {R : Err → Bool}
    {fn : Nat → Option Err × List (Event ρ)} {p : Event ρ → Bool}
    (hfn : ∀ j, List.countP p (fn j).2 = 1) :
    ∀ (steps i : Nat) (le : Option Err) (k : Nat),
      k + 1 < List.countP p (expBackoffTr R fn steps i le).2 →
      ∃ e, (fn (i + k)).1 = some e ∧ R e = true := by
  intro steps
  induction steps with
  | zero => intro i le k h; simp [expBackoffTr] at h
  | succ n ih =>
    intro i le k h
    unfold expBackoffTr at h
    cases hfn2 : fn i with
    | mk r tr1 =>
      rw [hfn2] at h
      have h1 := hfn i
      rw [hfn2] at h1
      simp at h1
      match r, h with
      | none, h =>
        dsimp only at h
        omega
      | some e, h =>
        dsimp only at h
        by_cases hR : R e
        · rw [if_pos hR] at h
          cases hrec : expBackoffTr R fn n (i + 1) (some e) with
          | mk p2 tr2 =>
            obtain ⟨r2, le2⟩ := p2
            rw [hrec] at h
            dsimp only at h
            rw [List.countP_append, h1] at h
            cases k with
            | zero =>
              refine ⟨e, ?_, hR⟩
              rw [Nat.add_zero, hfn2]
            | succ k' =>
              have h2 : k' + 1 < List.countP p (expBackoffTr R fn n (i + 1) (some e)).2 := by
                rw [hrec]
                dsimp only
                omega
              obtain ⟨e2, he2, hRe2⟩ := ih (i + 1) (some e) k' h2
              have hidx : i + 1 + k' = i + (k' + 1) := by omega
              rw [hidx] at he2
              exact ⟨e2, he2, hRe2⟩
        · rw [if_neg hR] at h
          dsimp only at h
          omega

/-- If attempts `i .. i+j-1` all returned retriable errors and attempt
`i + j < i + steps` returned a non-retriable error, the backoff loop
returns that error. -/
lemma expBackoffTr_nonretriable {R : Err → Bool}
    {fn : Nat → Option Err × List (Event ρ)} :
    ∀ (steps i : Nat) (le : Option Err) (j : Nat) (e : Err), j < steps →
      (∀ m, m < j → ∃ em, (fn (i + m)).1 = some em ∧ R em = true) →
      (fn (i + j)).1 = some e → R e = false →
      ∃ le2 tr, expBackoffTr R fn steps i le = ((some e, le2), tr) := by
  intro steps
  induction steps with
  | zero => intro i le j e hj; omega
  | succ n ih =>
    intro i le j e hj hpre hj2 hR
    match j with
    | 0 =>
      cases hfn : fn i with
      | mk r tr1 =>
        rw [Nat.add_zero, hfn] at hj2
        dsimp only at hj2
        subst hj2
        unfold expBackoffTr
        rw [hfn]
        dsimp only
        rw [if_neg (by rw [hR]; exact Bool.false_ne_true)]
        exact ⟨le, tr1, rfl⟩
    | j' + 1 =>
      obtain ⟨e0, he0, hRe0⟩ := hpre 0 (by omega)
      cases hfn : fn i with
      | mk r tr1 =>
        rw [Nat.add_zero, hfn] at he0
        dsimp only at he0
        subst he0
        unfold expBackoffTr
        rw [hfn]
        dsimp only
        rw [if_pos hRe0]
        have hpre2 : ∀ m, m < j' → ∃ em, (fn (i + 1 + m)).1 = some em ∧ R em = true := by
          intro m hm
          obtain ⟨em, hem, hRem⟩ := hpre (m + 1) (by omega)
          have : i + (m + 1) = i + 1 + m := by omega
          rw [this] at hem
          exact ⟨em, hem, hRem⟩
        have hj2b : (fn (i + 1 + j')).1 = some e := by
          have : i + 1 + j' = i + (j' + 1) := by omega
          rw [this]
          exact hj2
        obtain ⟨le2, tr2, hrec⟩ := ih (i + 1) (some e0) j' e (by omega) hpre2 hj2b hR
        rw [hrec]
        exact ⟨le2, tr1 ++ tr2, rfl⟩

/-- If every attempt the bound allows returns a retriable error, the
backoff loop exhausts its steps and its last error is the last attempt's
error. -/
lemma expBackoffTr_exhaust {R : Err → Bool}
    {fn : Nat → Option Err × List (Event ρ)} :
    ∀ (steps i : Nat) (le : Option Err), 0 < steps →
      (∀ m, m < steps → ∃ em, (fn (i + m)).1 = some em ∧ R em = true) →
      ∃ tr, expBackoffTr R fn steps i le =
        ((some Err.waitTimeout, (fn (i + steps - 1)).1), tr) := by
  intro steps
  induction steps with
  | zero => intro i le h; omega
  | succ n ih =>
    intro i le _ hall
    obtain ⟨e0, he0, hRe0⟩ := hall 0 (by omega)
    cases hfn : fn i with
    | mk r tr1 =>
      rw [Nat.add_zero, hfn] at he0
      dsimp only at he0
      subst he0
      unfold expBackoffTr
      rw [hfn]
      dsimp only
      rw [if_pos hRe0]
      match n with
      | 0 =>
        simp only [expBackoffTr]
        refine ⟨tr1 ++ [], ?_⟩
        have : i + (0 + 1) - 1 = i := by omega
        rw [this, hfn]
      | n' + 1 =>
        have hall2 : ∀ m, m < n' + 1 → ∃ em, (fn (i + 1 + m)).1 = some em ∧ R em = true := by
          intro m hm
          obtain ⟨em, hem, hRem⟩ := hall (m + 1) (by omega)
          have : i + (m + 1) = i + 1 + m := by omega
          rw [this] at hem
          exact ⟨em, hem, hRem⟩
        obtain ⟨tr2, hrec⟩ := ih (i + 1) (some e0) (by omega) hall2
        rw [hrec]
        refine ⟨tr1 ++ tr2, ?_⟩
        have : i + 1 + (n' + 1) - 1 = i + (n' + 1 + 1) - 1 := by omega
        rw [this]

/-- Each retry attempt performs exactly one install-plan `Get`. -/
lemma countP_isGetIPEv_approveAttempt (c : Cluster ρ) (key : NamespacedName) (i : Nat) :
    List.countP isGetIPEv (approveAttempt c key i).2 = 1 := by
  unfold approveAttempt
  cases hget : c.getIP i key with
  | error e => simp [isGetIPEv]
  | ok ip =>
    dsimp only
    cases hupd : c.updateIP i { ip with approved := true } with
    | some e => simp [isGetIPEv]
    | none => simp [isGetIPEv]

/-- Every install-plan `Get` of an attempt uses the given key, inside the
conflict-retry wrapper. -/
lemma approveAttempt_getShape {c : Cluster ρ} {key k : NamespacedName} {i : Nat}
    {w : Wrapper} (h : Event.getIPCall k w ∈ (approveAttempt c key i).2) :
    k = key ∧ w = Wrapper.retryConflict := by
  unfold approveAttempt at h
  cases hget : c.getIP i key with
  | error e =>
    rw [hget] at h
    simp at h
    exact h
  | ok ip =>
    rw [hget] at h
    dsimp only at h
    cases hupd : c.updateIP i { ip with approved := true } with
    | some e =>
      rw [hupd] at h
      simp at h
      exact h
    | none =>
      rw [hupd] at h
      simp at h
      exact h

/-- Every install-plan `Update` of an attempt writes back exactly the plan
that attempt fetched, with `Spec.Approved` set to true and no other field
changed, inside the conflict-retry wrapper. -/
lemma approveAttempt_updateShape {c : Cluster ρ} {key : NamespacedName} {i : Nat}
    {u : InstallPlan ρ} {w : Wrapper}
    (h : Event.updateIPCall u w ∈ (approveAttempt c key i).2) :
    w = Wrapper.retryConflict ∧ ∃ ip, c.getIP i key = .ok ip ∧
      u = { name := ip.name, ns := ip.ns, approved := true, rest := ip.rest } := by
  unfold approveAttempt at h
  cases hget : c.getIP i key with
  | error e =>
    rw [hget] at h
    simp at h
  | ok ip =>
    rw [hget] at h
    dsimp only at h
    cases hupd : c.updateIP i { ip with approved := true } with
    | some e =>
      rw [hupd] at h
      simp at h
      obtain ⟨hu, hw⟩ := h
      exact ⟨hw, ip, rfl, hu⟩
    | none =>
      rw [hupd] at h
      simp at h
      obtain ⟨hu, hw⟩ := h
      exact ⟨hw, ip, rfl, hu⟩

/-- An attempt's error is always one of the closure's two `%v`-wrapped
errors, hence never the bare `wait.ErrWaitTimeout`. -/
lemma approveAttempt_err_not_timeout {c : Cluster ρ} {key : NamespacedName} {i : Nat}
    {e : Err} (h : (approveAttempt c key i).1 = some e) : e ≠ Err.waitTimeout := by
  unfold approveAttempt at h
  cases hget : c.getIP i key with
  | error e2 =>
    rw [hget] at h
    dsimp only at h
    simp at h
    subst h
    intro hcontra
    cases hcontra
  | ok ip =>
    rw [hget] at h
    dsimp only at h
    cases hupd : c.updateIP i { ip with approved := true } with
    | some e2 =>
      rw [hupd] at h
      simp at h
      subst h
      intro hcontra
      cases hcontra
    | none =>
      rw [hupd] at h
      simp at h

/-- `RetryOnConflict` returns the backoff loop's trace unchanged. -/
lemma retryOnConflictTr_trace (fn : Nat → Option Err × List (Event ρ)) :
    (retryOnConflictTr fn).2 =
      (expBackoffTr Err.isConflict fn DefaultBackoffSteps 0 none).2 := by
  unfold retryOnConflictTr
  cases h : expBackoffTr Err.isConflict fn DefaultBackoffSteps 0 none with
  | mk p tr =>
    obtain ⟨r, le⟩ := p
    match r with
    | none => rfl
    | some e => cases e <;> rfl

/-- When the backoff loop stops on a non-timeout error, `RetryOnConflict`
returns exactly that error. -/
lemma retryOnConflictTr_of_err {fn : Nat → Option Err × List (Event ρ)}
    {e : Err} {le : Option Err} {tr : List (Event ρ)} (hne : e ≠ Err.waitTimeout)
    (h : expBackoffTr Err.isConflict fn DefaultBackoffSteps 0 none = ((some e, le), tr)) :
    retryOnConflictTr fn = (some e, tr) := by
  unfold retryOnConflictTr
  rw [h]
  cases e with
  | waitTimeout => exact absurd rfl hne
  | conflict => rfl
  | apiErr m => rfl
  | wrapv m e2 => rfl
  | wrapw m e2 => rfl

/-- When the backoff loop exhausts its steps (`wait.ErrWaitTimeout`),
`RetryOnConflict` returns the last retriable error instead. -/
lemma retryOnConflictTr_of_timeout {fn : Nat → Option Err × List (Event ρ)}
    {le : Option Err} {tr : List (Event ρ)}
    (h : expBackoffTr Err.isConflict fn DefaultBackoffSteps 0 none =
      ((some Err.waitTimeout, le), tr)) :
    retryOnConflictTr fn = (le, tr) := by
  unfold retryOnConflictTr
  rw [h]

/-- C6: on each attempt, `approveInstallPlan` fetches the install plan
named by the subscription's `InstallPlanRef` and writes back exactly the
fetched plan with `Spec.Approved` set to true — no other field of the
fetched plan is changed before the update. -/
theorem approveInstallPlan_update_frame {ρ : Type} (c : Cluster ρ) (sub : Subscription)
    (ref : InstallPlanRef) (r : Option Err) (tr : List (Event ρ))
    (href : sub.status.installPlanRef = some ref)
    (happ : approveInstallPlan c sub = some (r, tr)) :
    (∀ k w, Event.getIPCall k w ∈ tr →
      k = { name := ref.name, ns := ref.ns } ∧ w = Wrapper.retryConflict) ∧
    (∀ u w, Event.updateIPCall u w ∈ tr →
      w = Wrapper.retryConflict ∧
      ∃ i ip, c.getIP i { name := ref.name, ns := ref.ns } = .ok ip ∧
        u = { name := ip.name, ns := ip.ns, approved := true, rest := ip.rest }) := by
  unfold approveInstallPlan at happ
  rw [href] at happ
  dsimp only at happ
  simp at happ
  have htr : tr = (retryOnConflictTr
      (approveAttempt c { name := ref.name, ns := ref.ns })).2 := by
    rw [happ]
  rw [retryOnConflictTr_trace] at htr
  constructor
  · intro k w hmem
    rw [htr] at hmem
    obtain ⟨j, _, _, hj⟩ := mem_expBackoffTr DefaultBackoffSteps 0 none _ hmem
    exact approveAttempt_getShape hj
  · intro u w hmem
    rw [htr] at hmem
    obtain ⟨j, _, _, hj⟩ := mem_expBackoffTr DefaultBackoffSteps 0 none _ hmem
    obtain ⟨hw, ip, hip, hu⟩ := approveAttempt_updateShape hj
    exact ⟨hw, j, ip, hip, hu⟩

/-- Witness for C6 at a concrete run on the all-successful cluster. -/
theorem approveInstallPlan_update_frame_witness :
    (∀ k w, Event.getIPCall k w ∈
        ([Event.getIPCall { name := "ip-1", ns := "ns1" } Wrapper.retryConflict,
          Event.updateIPCall
            { name := "ip-1", ns := "ns1", approved := true, rest := (0 : Nat) }
            Wrapper.retryConflict] : List (Event Nat)) →
      k = { name := "ip-1", ns := "ns1" } ∧ w = Wrapper.retryConflict) ∧
    (∀ u w, Event.updateIPCall u w ∈
        ([Event.getIPCall { name := "ip-1", ns := "ns1" } Wrapper.retryConflict,
          Event.updateIPCall
            { name := "ip-1", ns := "ns1", approved := true, rest := (0 : Nat) }
            Wrapper.retryConflict] : List (Event Nat)) →
      w = Wrapper.retryConflict ∧
      ∃ i ip, okCluster.getIP i { name := "ip-1", ns := "ns1" } = .ok ip ∧
        u = { name := ip.name, ns := ip.ns, approved := true, rest := ip.rest }) :=
  approveInstallPlan_update_frame okCluster demoFetchedSub
    { name := "ip-1", ns := "ns1" } none
    [Event.getIPCall { name := "ip-1", ns := "ns1" } Wrapper.retryConflict,
      Event.updateIPCall
        { name := "ip-1", ns := "ns1", approved := true, rest := (0 : Nat) }
        Wrapper.retryConflict]
    (by rfl) (by rfl)

/-- C5: the update in `approveInstallPlan` is retried only on conflict
errors and only a bounded number of times — the default backoff's
`DefaultBackoffSteps` — so it always terminates: given a populated
install-plan reference the function returns (no panic); the number of
attempts is at most the bound; an attempt beyond the first runs only
because the previous attempt's error was a conflict; a non-conflict error
from the get or the update (always `%v`-wrapped by the closure) is returned
as is; and when every allowed attempt errs with a conflict, the bound is
exhausted and the last attempt's error is returned. -/
theorem approveInstallPlan_bounded_retry {ρ : Type} (c : Cluster ρ) (sub : Subscription)
    (ref : InstallPlanRef) (href : sub.status.installPlanRef = some ref) :
    ∃ r tr, approveInstallPlan c sub = some (r, tr) ∧
      List.countP isGetIPEv tr ≤ DefaultBackoffSteps ∧
      (∀ k, k + 1 < List.countP isGetIPEv tr →
        ∃ e, (approveAttempt c { name := ref.name, ns := ref.ns } k).1 = some e ∧
          e.isConflict = true) ∧
      (∀ j e, j < DefaultBackoffSteps →
        (∀ m, m < j →
          ∃ em, (approveAttempt c { name := ref.name, ns := ref.ns } m).1 = some em ∧
            em.isConflict = true) →
        (approveAttempt c { name := ref.name, ns := ref.ns } j).1 = some e →
        e.isConflict = false → r = some e) ∧
      ((∀ m, m < DefaultBackoffSteps →
          ∃ em, (approveAttempt c { name := ref.name, ns := ref.ns } m).1 = some em ∧
            em.isConflict = true) →
        r = (approveAttempt c { name := ref.name, ns := ref.ns }
          (DefaultBackoffSteps - 1)).1) := by
  have happ : approveInstallPlan c sub =
      some (retryOnConflictTr (approveAttempt c { name := ref.name, ns := ref.ns })) := by
    unfold approveInstallPlan
    rw [href]
  cases hres : retryOnConflictTr (approveAttempt c { name := ref.name, ns := ref.ns }) with
  | mk r tr =>
    have htr : tr =
        (expBackoffTr Err.isConflict (approveAttempt c { name := ref.name, ns := ref.ns })
          DefaultBackoffSteps 0 none).2 := by
      rw [← retryOnConflictTr_trace, hres]
    refine ⟨r, tr, by rw [happ, hres], ?_, ?_, ?_, ?_⟩
    · rw [htr]
      exact countP_expBackoffTr_le
        (countP_isGetIPEv_approveAttempt c { name := ref.name, ns := ref.ns })
        DefaultBackoffSteps 0 none
    · intro k hk
      rw [htr] at hk
      obtain ⟨e, he, hconf⟩ := expBackoffTr_retry_needs_retriable
        (countP_isGetIPEv_approveAttempt c { name := ref.name, ns := ref.ns })
        DefaultBackoffSteps 0 none k hk
      rw [Nat.zero_add] at he
      exact ⟨e, he, hconf⟩
    · intro j e hj hpre hatt hnc
      have hpre2 : ∀ m, m < j →
          ∃ em, ((approveAttempt c { name := ref.name, ns := ref.ns }) (0 + m)).1 = some em ∧
            Err.isConflict em = true := by
        intro m hm
        rw [Nat.zero_add]
        exact hpre m hm
      obtain ⟨le2, tr2, hloop⟩ := expBackoffTr_nonretriable DefaultBackoffSteps 0 none j e hj
        hpre2 (by rw [Nat.zero_add]; exact hatt) hnc
      have := retryOnConflictTr_of_err (approveAttempt_err_not_timeout hatt) hloop
      rw [hres] at this
      exact (Prod.mk.injEq _ _ _ _ ▸ this).1
    · intro hall
      have hall2 : ∀ m, m < DefaultBackoffSteps →
          ∃ em, ((approveAttempt c { name := ref.name, ns := ref.ns }) (0 + m)).1 = some em ∧
            Err.isConflict em = true := by
        intro m hm
        rw [Nat.zero_add]
        exact hall m hm
      obtain ⟨tr2, hloop⟩ := expBackoffTr_exhaust DefaultBackoffSteps 0 none (by decide) hall2
      rw [Nat.zero_add] at hloop
      have := retryOnConflictTr_of_timeout hloop
      rw [hres] at this
      exact (Prod.mk.injEq _ _ _ _ ▸ this).1

/-- Witness for C5 at a concrete run on the all-successful cluster. -/
theorem approveInstallPlan_bounded_retry_witness :
    ∃ r tr, approveInstallPlan okCluster demoFetchedSub = some (r, tr) ∧
      List.countP isGetIPEv tr ≤ DefaultBackoffSteps ∧
      (∀ k, k + 1 < List.countP isGetIPEv tr →
        ∃ e, (approveAttempt okCluster { name := "ip-1", ns := "ns1" } k).1 = some e ∧
          e.isConflict = true) ∧
      (∀ j e, j < DefaultBackoffSteps →
        (∀ m, m < j →
          ∃ em, (approveAttempt okCluster { name := "ip-1", ns := "ns1" } m).1 = some em ∧
            em.isConflict = true) →
        (approveAttempt okCluster { name := "ip-1", ns := "ns1" } j).1 = some e →
        e.isConflict = false → r = some e) ∧
      ((∀ m, m < DefaultBackoffSteps →
          ∃ em, (approveAttempt okCluster { name := "ip-1", ns := "ns1" } m).1 = some em ∧
            em.isConflict = true) →
        r = (approveAttempt okCluster { name := "ip-1", ns := "ns1" }
          (DefaultBackoffSteps - 1)).1) :=
  approveInstallPlan_bounded_retry okCluster demoFetchedSub
    { name := "ip-1", ns := "ns1" } (by rfl)

/-- C1: a successful `InstallOperator` run decomposes into its six steps in
the fixed source order — catalog creation, operator-group ensure,
subscription creation, install-plan wait, install-plan approval, CSV wait
and fetch — each step having succeeded, no step's remote calls occurring
before the previous step's (the trace is the in-order concatenation of the
steps' calls), and the returned CSV being the one `getInstalledCSV`
fetched. -/
theorem installOperator_success_order {ρ : Type} (o : OperatorInstaller) (c : Cluster ρ)
    (csv : ClusterServiceVersion) (tr : List (Event ρ))
    (h : installOperator o c = some (.ok csv, tr)) :
    ∃ cs sub subtr s wtr atr csvtr,
      c.createCatalog o.catalogSourceName = .ok cs ∧
      (createOperatorGroup o c).err = none ∧
      createSubscription o c cs = (.ok sub, subtr) ∧
      waitForInstallPlan o c sub = ((none, s), wtr) ∧
      approveInstallPlan c s = some (none, atr) ∧
      getInstalledCSV o c = (.ok csv, csvtr) ∧
      tr = [Event.createCatalogCall o.catalogSourceName] ++
        (createOperatorGroup o c).events ++ subtr ++ wtr ++ atr ++ csvtr := by
  unfold installOperator at h
  cases hcat : c.createCatalog o.catalogSourceName with
  | error e => rw [hcat] at h; simp at h
  | ok cs =>
    rw [hcat] at h
    dsimp only at h
    cases hog : createOperatorGroup o c with
    | mk ogerr ogev ogfin =>
      rw [hog] at h
      match ogerr, h with
      | some e, h => simp at h
      | none, h =>
        dsimp only at h
        cases hsub : createSubscription o c cs with
        | mk subr subtr =>
          rw [hsub] at h
          match subr, h with
          | .error e, h => simp at h
          | .ok sub, h =>
            dsimp only at h
            cases hw : waitForInstallPlan o c sub with
            | mk wp wtr =>
              obtain ⟨wr, s⟩ := wp
              rw [hw] at h
              match wr, h with
              | some e, h => simp at h
              | none, h =>
                dsimp only at h
                cases ha : approveInstallPlan c s with
                | none => rw [ha] at h; simp at h
                | some ap =>
                  obtain ⟨ar, atr⟩ := ap
                  rw [ha] at h
                  match ar, h with
                  | some e, h => simp at h
                  | none, h =>
                    dsimp only at h
                    cases hg : getInstalledCSV o c with
                    | mk gr csvtr =>
                      rw [hg] at h
                      match gr, h with
                      | .error e, h => simp at h
                      | .ok csv2, h =>
                        simp at h
                        obtain ⟨hcsv, htr⟩ := h
                        subst hcsv
                        refine ⟨cs, sub, subtr, s, wtr, atr, csvtr,
                          ?_, ?_, ?_, ?_, ?_, ?_, ?_⟩ <;>
                          first
                            | rfl
                            | exact hcat
                            | exact hsub
                            | exact hw
                            | exact ha
                            | exact hg
                            | simpa using htr.symm

/-- Witness for C1 at a concrete successful run. -/
theorem installOperator_success_order_witness :
    ∃ cs sub subtr s wtr atr csvtr,
      okCluster.createCatalog "cs" = .ok cs ∧
      (createOperatorGroup demoInstaller okCluster).err = none ∧
      createSubscription demoInstaller okCluster cs = (.ok sub, subtr) ∧
      waitForInstallPlan demoInstaller okCluster sub = ((none, s), wtr) ∧
      approveInstallPlan okCluster s = some (none, atr) ∧
      getInstalledCSV demoInstaller okCluster =
        (.ok { name := "csv-v1", ns := "ns1", phase := "Succeeded" }, csvtr) ∧
      ([Event.createCatalogCall "cs",
        Event.listOGCall "ns1" Wrapper.direct,
        Event.createOGCall (newSDKOperatorGroup "ns1" ["ns1"]) Wrapper.direct,
        Event.createSubCall demoBuiltSub Wrapper.direct,
        Event.getSubCall { name := "csv-v1", ns := "ns1" } Wrapper.poll,
        Event.getIPCall { name := "ip-1", ns := "ns1" } Wrapper.retryConflict,
        Event.updateIPCall
          { name := "ip-1", ns := "ns1", approved := true, rest := (0 : Nat) }
          Wrapper.retryConflict,
        Event.csvPhaseCall { name := "csv-v1", ns := "ns1" } Wrapper.poll,
        Event.getCSVCall { name := "csv-v1", ns := "ns1" } Wrapper.direct] :
          List (Event Nat)) =
        [Event.createCatalogCall "cs"] ++
          (createOperatorGroup demoInstaller okCluster).events ++ subtr ++ wtr ++
          atr ++ csvtr := by
  obtain ⟨cs, sub, subtr, s, wtr, atr, csvtr, h1, h2, h3, h4, h5, h6, h7⟩ :=
    installOperator_success_order demoInstaller okCluster
      { name := "csv-v1", ns := "ns1", phase := "Succeeded" }
      [Event.createCatalogCall "cs",
        Event.listOGCall "ns1" Wrapper.direct,
        Event.createOGCall (newSDKOperatorGroup "ns1" ["ns1"]) Wrapper.direct,
        Event.createSubCall demoBuiltSub Wrapper.direct,
        Event.getSubCall { name := "csv-v1", ns := "ns1" } Wrapper.poll,
        Event.getIPCall { name := "ip-1", ns := "ns1" } Wrapper.retryConflict,
        Event.updateIPCall
          { name := "ip-1", ns := "ns1", approved := true, rest := (0 : Nat) }
          Wrapper.retryConflict,
        Event.csvPhaseCall { name := "csv-v1", ns := "ns1" } Wrapper.poll,
        Event.getCSVCall { name := "csv-v1", ns := "ns1" } Wrapper.direct]
      (by rfl)
  exact ⟨cs, sub, subtr, s, wtr, atr, csvtr, h1, h2, h3, h4, h5, h6, h7⟩

/-- C7: whenever a step of `InstallOperator` fails, the run returns nil
(`Except.error`) together with that step's (possibly wrapped) non-nil
error, and no later step runs: the trace ends with the failing step's
calls. One conjunct per step, each assuming the earlier steps succeeded
and that step failed. -/
theorem installOperator_error_stops {ρ : Type} (o : OperatorInstaller) (c : Cluster ρ) :
    (∀ e, c.createCatalog o.catalogSourceName = .error e →
      installOperator o c = some (.error (.wrapv "create catalog" e),
        [Event.createCatalogCall o.catalogSourceName])) ∧
    (∀ cs e, c.createCatalog o.catalogSourceName = .ok cs →
      (createOperatorGroup o c).err = some e →
      installOperator o c = some (.error e,
        [Event.createCatalogCall o.catalogSourceName] ++ (createOperatorGroup o c).events)) ∧
    (∀ cs e subtr, c.createCatalog o.catalogSourceName = .ok cs →
      (createOperatorGroup o c).err = none →
      createSubscription o c cs = (.error e, subtr) →
      installOperator o c = some (.error e,
        [Event.createCatalogCall o.catalogSourceName] ++ (createOperatorGroup o c).events ++
          subtr)) ∧
    (∀ cs sub subtr e s wtr, c.createCatalog o.catalogSourceName = .ok cs →
      (createOperatorGroup o c).err = none →
      createSubscription o c cs = (.ok sub, subtr) →
      waitForInstallPlan o c sub = ((some e, s), wtr) →
      installOperator o c = some (.error e,
        [Event.createCatalogCall o.catalogSourceName] ++ (createOperatorGroup o c).events ++
          subtr ++ wtr)) ∧
    (∀ cs sub subtr s wtr e atr, c.createCatalog o.catalogSourceName = .ok cs →
      (createOperatorGroup o c).err = none →
      createSubscription o c cs = (.ok sub, subtr) →
      waitForInstallPlan o c sub = ((none, s), wtr) →
      approveInstallPlan c s = some (some e, atr) →
      installOperator o c = some (.error e,
        [Event.createCatalogCall o.catalogSourceName] ++ (createOperatorGroup o c).events ++
          subtr ++ wtr ++ atr)) ∧
    (∀ cs sub subtr s wtr atr e csvtr, c.createCatalog o.catalogSourceName = .ok cs →
      (createOperatorGroup o c).err = none →
      createSubscription o c cs = (.ok sub, subtr) →
      waitForInstallPlan o c sub = ((none, s), wtr) →
      approveInstallPlan c s = some (none, atr) →
      getInstalledCSV o c = (.error e, csvtr) →
      installOperator o c = some (.error e,
        [Event.createCatalogCall o.catalogSourceName] ++ (createOperatorGroup o c).events ++
          subtr ++ wtr ++ atr ++ csvtr)) := by
  refine ⟨?_, ?_, ?_, ?_, ?_, ?_⟩
  · intro e h
    unfold installOperator
    rw [h]
  · intro cs e hcat herr
    unfold installOperator
    rw [hcat]
    dsimp only
    cases hog : createOperatorGroup o c with
    | mk ogerr ogev ogfin =>
      rw [hog] at herr
      dsimp only at herr
      subst herr
      rfl
  · intro cs e subtr hcat herr hsub
    unfold installOperator
    rw [hcat]
    dsimp only
    cases hog : createOperatorGroup o c with
    | mk ogerr ogev ogfin =>
      rw [hog] at herr
      dsimp only at herr
      subst herr
      dsimp only
      rw [hsub]
  · intro cs sub subtr e s wtr hcat herr hsub hw
    unfold installOperator
    rw [hcat]
    dsimp only
    cases hog : createOperatorGroup o c with
    | mk ogerr ogev ogfin =>
      rw [hog] at herr
      dsimp only at herr
      subst herr
      dsimp only
      rw [hsub]
      dsimp only
      rw [hw]
  · intro cs sub subtr s wtr e atr hcat herr hsub hw ha
    unfold installOperator
    rw [hcat]
    dsimp only
    cases hog : createOperatorGroup o c with
    | mk ogerr ogev ogfin =>
      rw [hog] at herr
      dsimp only at herr
      subst herr
      dsimp only
      rw [hsub]
      dsimp only
      rw [hw]
      dsimp only
      rw [ha]
  · intro cs sub subtr s wtr atr e csvtr hcat herr hsub hw ha hg
    unfold installOperator
    rw [hcat]
    dsimp only
    cases hog : createOperatorGroup o c with
    | mk ogerr ogev ogfin =>
      rw [hog] at herr
      dsimp only at herr
      subst herr
      dsimp only
      rw [hsub]
      dsimp only
      rw [hw]
      dsimp only
      rw [ha]
      dsimp only
      rw [hg]

/-- A cluster oracle on which the subscription `Create` call is rejected;
every other call succeeds. -/
def subFailCluster : Cluster Nat :=
  { okCluster with createSub := fun _ => some (.apiErr "denied") }

/-- Witness for C7: a concrete run in which the subscription-creation step
fails; the run stops there with that step's wrapped error and no later
remote calls. -/
theorem installOperator_error_stops_witness :
    installOperator demoInstaller subFailCluster =
      some (.error (.wrapw "error creating subscription" (.apiErr "denied")),
        [Event.createCatalogCall "cs"] ++
          (createOperatorGroup demoInstaller subFailCluster).events ++
          [Event.createSubCall demoBuiltSub Wrapper.direct]) :=
  (installOperator_error_stops demoInstaller subFailCluster).2.2.1
    { name := "cs", ns := "ns1" } (.wrapw "error creating subscription" (.apiErr "denied"))
    [Event.createSubCall demoBuiltSub Wrapper.direct]
    (by rfl) (by rfl) (by rfl)

/-- The wrapper tag of a client call made by the helper steps of this file
(`none` for the `CatalogCreator.CreateCatalog` interface call, whose
internals live outside this file). -/
def helperCallWrapper : Event ρ → Option Wrapper
  | .createCatalogCall _ => none
  | .listOGCall _ w => some w
  | .createOGCall _ w => some w
  | .createSubCall _ w => some w
  | .getSubCall _ w => some w
  | .getIPCall _ w => some w
  | .updateIPCall _ w => some w
  | .csvPhaseCall _ w => some w
  | .getCSVCall _ w => some w

/-- Stated from the spec's words (for comparison with the code): "each
[helper step is] a direct call into a remote API with a wait/retry
wrapper", read as: every remote call made by the helper steps — including
`createOperatorGroup` and `createSubscription` — is made under a wait or
retry wrapper, i.e. no helper-step client call is a bare direct call. -/
def allHelperCallsWrapped (tr : List (Event ρ)) : Prop :=
  ∀ ev ∈ tr, ∀ w, helperCallWrapper ev = some w → w ≠ Wrapper.direct

/-- The wrapper discipline the code actually follows, per call: the
subscription polls run under `wait.PollImmediateUntil`, the install-plan
get/update under `retry.RetryOnConflict`, the CSV-phase polls under the
CSV wait's poll; the operator-group `List`/`Create`, the subscription
`Create` and the final CSV `Get` are direct client calls with no wait or
retry wrapper. -/
def eventWrapperOK : Event ρ → Prop
  | .createCatalogCall _ => True
  | .listOGCall _ w => w = Wrapper.direct
  | .createOGCall _ w => w = Wrapper.direct
  | .createSubCall _ w => w = Wrapper.direct
  | .getSubCall _ w => w = Wrapper.poll
  | .getIPCall _ w => w = Wrapper.retryConflict
  | .updateIPCall _ w => w = Wrapper.retryConflict
  | .csvPhaseCall _ w => w = Wrapper.poll
  | .getCSVCall _ w => w = Wrapper.direct

/-- Every remote call of `createOperatorGroup` follows the code's wrapper
discipline (in particular, its `List` and `Create` are direct). -/
lemma createOperatorGroup_events_ok (o : OperatorInstaller) (c : Cluster ρ) :
    ∀ ev ∈ (createOperatorGroup o c).events, eventWrapperOK ev := by
  intro ev hev
  unfold createOperatorGroup getOperatorGroup at hev
  cases hlist : c.listOperatorGroups o.cfg.ns with
  | error e =>
    rw [hlist] at hev
    simp at hev
    subst hev
    trivial
  | ok items =>
    rw [hlist] at hev
    match items, hev with
    | [], hev =>
      dsimp only at hev
      cases hcr : c.createOG (newSDKOperatorGroup o.cfg.ns o.installMode.targetNamespaces) with
      | some e =>
        rw [hcr] at hev
        simp at hev
        cases hev with
        | inl hev => subst hev; trivial
        | inr hev => subst hev; trivial
      | none =>
        rw [hcr] at hev
        simp at hev
        cases hev with
        | inl hev => subst hev; trivial
        | inr hev => subst hev; trivial
    | [og], hev =>
      dsimp only at hev
      split at hev
      · simp at hev; subst hev; trivial
      · split at hev
        · simp at hev; subst hev; trivial
        · simp at hev; subst hev; trivial
    | og1 :: og2 :: rest, hev =>
      dsimp only at hev
      simp at hev
      subst hev
      trivial

/-- Every remote call of `createSubscription` follows the code's wrapper
discipline (its `Create` is direct). -/
lemma createSubscription_events_ok (o : OperatorInstaller) (c : Cluster ρ)
    (cs : CatalogSource) : ∀ ev ∈ (createSubscription o c cs).2, eventWrapperOK ev := by
  intro ev hev
  unfold createSubscription at hev
  dsimp only at hev
  cases hcr : c.createSub (buildSubscription o.startingCSV o.cfg.ns o.packageName o.channel
      o.startingCSV cs.name o.cfg.ns Approval.manual) with
  | some e =>
    rw [hcr] at hev
    simp at hev
    subst hev
    trivial
  | none =>
    rw [hcr] at hev
    simp at hev
    subst hev
    trivial

/-- Every remote call of the install-plan wait's poll is a subscription
`Get` under the poll wrapper. -/
lemma pollSub_events_ok (c : Cluster ρ) (key : NamespacedName) :
    ∀ (fuel i : Nat) (sub : Subscription), ∀ ev ∈ (pollSub c key fuel i sub).2,
      eventWrapperOK ev := by
  intro fuel
  induction fuel with
  | zero => intro i sub ev hev; simp [pollSub] at hev
  | succ n ih =>
    intro i sub ev hev
    unfold pollSub at hev
    cases hstep : ipCheckStep c key i sub with
    | mk r rest =>
      obtain ⟨s1, tr1⟩ := rest
      rw [hstep] at hev
      have htr1 : tr1 = [Event.getSubCall key Wrapper.poll] := by
        unfold ipCheckStep at hstep
        cases hget : c.getSub i key with
        | error e => rw [hget] at hstep; simp at hstep; exact hstep.2.2.symm
        | ok s2 => rw [hget] at hstep; simp at hstep; exact hstep.2.2.symm
      match r, hev with
      | .error e, hev =>
        dsimp only at hev
        rw [htr1] at hev
        simp at hev
        subst hev
        trivial
      | .ok true, hev =>
        dsimp only at hev
        rw [htr1] at hev
        simp at hev
        subst hev
        trivial
      | .ok false, hev =>
        dsimp only at hev
        cases hrec : pollSub c key n (i + 1) s1 with
        | mk p tr2 =>
          obtain ⟨r2, s2⟩ := p
          rw [hrec] at hev
          dsimp only at hev
          rw [htr1] at hev
          simp at hev
          cases hev with
          | inl hev => subst hev; trivial
          | inr hev => exact ih (i + 1) s1 ev (by rw [hrec]; exact hev)

/-- Every remote call of `waitForInstallPlan` follows the code's wrapper
discipline. -/
lemma waitForInstallPlan_events_ok (o : OperatorInstaller) (c : Cluster ρ)
    (sub : Subscription) : ∀ ev ∈ (waitForInstallPlan o c sub).2, eventWrapperOK ev := by
  intro ev hev
  unfold waitForInstallPlan at hev
  dsimp only at hev
  cases hpoll : pollSub c { name := sub.name, ns := sub.ns } c.ipWaitFuel 0 sub with
  | mk p tr =>
    obtain ⟨r, s⟩ := p
    rw [hpoll] at hev
    have hmem : ev ∈ tr := by
      match r, hev with
      | some e, hev => exact hev
      | none, hev => exact hev
    exact pollSub_events_ok c { name := sub.name, ns := sub.ns } c.ipWaitFuel 0 sub ev
      (by rw [hpoll]; exact hmem)

/-- Every remote call of `approveInstallPlan` follows the code's wrapper
discipline (its get and update run under the conflict-retry wrapper). -/
lemma approveInstallPlan_events_ok (c : Cluster ρ) (s : Subscription)
    (r : Option Err) (tr : List (Event ρ)) (h : approveInstallPlan c s = some (r, tr)) :
    ∀ ev ∈ tr, eventWrapperOK ev := by
  intro ev hev
  unfold approveInstallPlan at h
  cases href : s.status.installPlanRef with
  | none => rw [href] at h; simp at h
  | some ref =>
    rw [href] at h
    dsimp only at h
    simp at h
    have htr : tr = (retryOnConflictTr
        (approveAttempt c { name := ref.name, ns := ref.ns })).2 := by rw [h]
    rw [retryOnConflictTr_trace] at htr
    rw [htr] at hev
    obtain ⟨j, _, _, hj⟩ := mem_expBackoffTr DefaultBackoffSteps 0 none ev hev
    revert hj
    unfold approveAttempt
    cases hget : c.getIP j { name := ref.name, ns := ref.ns } with
    | error e =>
      intro hj
      simp at hj
      subst hj
      trivial
    | ok ip =>
      dsimp only
      cases hupd : c.updateIP j { ip with approved := true } with
      | some e =>
        intro hj
        simp at hj
        cases hj with
        | inl hj => subst hj; trivial
        | inr hj => subst hj; trivial
      | none =>
        intro hj
        simp at hj
        cases hj with
        | inl hj => subst hj; trivial
        | inr hj => subst hj; trivial

/-- Every remote call of the CSV wait's poll is a phase check under the
poll wrapper. -/
lemma doCSVWait_events_ok (c : Cluster ρ) (key : NamespacedName) :
    ∀ (fuel i : Nat), ∀ ev ∈ (doCSVWait c key fuel i).2, eventWrapperOK ev := by
  intro fuel
  induction fuel with
  | zero => intro i ev hev; simp [doCSVWait] at hev
  | succ n ih =>
    intro i ev hev
    unfold doCSVWait at hev
    cases hstep : csvPhaseStep c key i with
    | mk r tr1 =>
      rw [hstep] at hev
      have htr1 : tr1 = [Event.csvPhaseCall key Wrapper.poll] := by
        unfold csvPhaseStep at hstep
        cases hph : c.getCSVPhase i key with
        | error e => rw [hph] at hstep; simp at hstep; exact hstep.2.symm
        | ok phase => rw [hph] at hstep; simp at hstep; exact hstep.2.symm
      match r, hev with
      | .error e, hev =>
        dsimp only at hev
        rw [htr1] at hev
        simp at hev
        subst hev
        trivial
      | .ok true, hev =>
        dsimp only at hev
        rw [htr1] at hev
        simp at hev
        subst hev
        trivial
      | .ok false, hev =>
        dsimp only at hev
        cases hrec : doCSVWait c key n (i + 1) with
        | mk r2 tr2 =>
          rw [hrec] at hev
          dsimp only at hev
          rw [htr1] at hev
          simp at hev
          cases hev with
          | inl hev => subst hev; trivial
          | inr hev => exact ih (i + 1) ev (by rw [hrec]; exact hev)

/-- Every remote call of `getInstalledCSV` follows the code's wrapper
discipline (the phase polls are wrapped; the final `Get` is direct). -/
lemma getInstalledCSV_events_ok (o : OperatorInstaller) (c : Cluster ρ) :
    ∀ ev ∈ (getInstalledCSV o c).2, eventWrapperOK ev := by
  intro ev hev
  unfold getInstalledCSV at hev
  cases hnc : c.newClient with
  | some e => rw [hnc] at hev; simp at hev
  | none =>
    rw [hnc] at hev
    dsimp only at hev
    cases hw : doCSVWait c { name := o.startingCSV, ns := o.cfg.ns } c.csvWaitFuel 0 with
    | mk r trw =>
      rw [hw] at hev
      match r, hev with
      | some e, hev =>
        exact doCSVWait_events_ok c { name := o.startingCSV, ns := o.cfg.ns }
          c.csvWaitFuel 0 ev (by rw [hw]; exact hev)
      | none, hev =>
        dsimp only at hev
        cases hg : c.getCSV { name := o.startingCSV, ns := o.cfg.ns } with
        | error e =>
          rw [hg] at hev
          simp at hev
          cases hev with
          | inl hev =>
            exact doCSVWait_events_ok c { name := o.startingCSV, ns := o.cfg.ns }
              c.csvWaitFuel 0 ev (by rw [hw]; exact hev)
          | inr hev => subst hev; trivial
        | ok csv =>
          rw [hg] at hev
          simp at hev
          cases hev with
          | inl hev =>
            exact doCSVWait_events_ok c { name := o.startingCSV, ns := o.cfg.ns }
              c.csvWaitFuel 0 ev (by rw [hw]; exact hev)
          | inr hev => subst hev; trivial

/-- C8 counterexample: on a concrete successful run, a helper step's remote
call — `createSubscription`'s `Create` — is a direct client call with no
wait/retry wrapper, so the claim "every remote call made by the helper
steps goes through a wait or retry wrapper" is false on the code. -/
theorem allHelperCallsWrapped_counterexample :
    ∃ res tr, installOperator demoInstaller okCluster = some (res, tr) ∧
      Event.createSubCall demoBuiltSub Wrapper.direct ∈ tr ∧
      ¬ allHelperCallsWrapped tr := by
  refine ⟨.ok { name := "csv-v1", ns := "ns1", phase := "Succeeded" },
    [Event.createCatalogCall "cs",
      Event.listOGCall "ns1" Wrapper.direct,
      Event.createOGCall (newSDKOperatorGroup "ns1" ["ns1"]) Wrapper.direct,
      Event.createSubCall demoBuiltSub Wrapper.direct,
      Event.getSubCall { name := "csv-v1", ns := "ns1" } Wrapper.poll,
      Event.getIPCall { name := "ip-1", ns := "ns1" } Wrapper.retryConflict,
      Event.updateIPCall
        { name := "ip-1", ns := "ns1", approved := true, rest := (0 : Nat) }
        Wrapper.retryConflict,
      Event.csvPhaseCall { name := "csv-v1", ns := "ns1" } Wrapper.poll,
      Event.getCSVCall { name := "csv-v1", ns := "ns1" } Wrapper.direct],
    by rfl, by decide, ?_⟩
  intro hwrapped
  have := hwrapped (Event.createSubCall demoBuiltSub Wrapper.direct) (by decide)
    Wrapper.direct rfl
  exact this rfl

/-- C8 amended: the polling and retry steps make their remote calls under
wait/retry wrappers (subscription polls, install-plan get/update, CSV-phase
polls), while the resource-creation helper steps `createOperatorGroup` and
`createSubscription`, and `getInstalledCSV`'s final fetch, issue direct
client calls with no wrapper: every helper step's calls follow exactly
`eventWrapperOK`. -/
theorem helper_steps_wrapper_discipline {ρ : Type} (o : OperatorInstaller)
    (c : Cluster ρ) (cs : CatalogSource) (sub s : Subscription) :
    (∀ ev ∈ (createOperatorGroup o c).events, eventWrapperOK ev) ∧
    (∀ ev ∈ (createSubscription o c cs).2, eventWrapperOK ev) ∧
    (∀ ev ∈ (waitForInstallPlan o c sub).2, eventWrapperOK ev) ∧
    (∀ r tr, approveInstallPlan c s = some (r, tr) → ∀ ev ∈ tr, eventWrapperOK ev) ∧
    (∀ ev ∈ (getInstalledCSV o c).2, eventWrapperOK ev) :=
  ⟨createOperatorGroup_events_ok o c, createSubscription_events_ok o c cs,
    waitForInstallPlan_events_ok o c sub,
    fun r tr h => approveInstallPlan_events_ok c s r tr h,
    getInstalledCSV_events_ok o c⟩

/-- Witness for the amended C8 at a concrete run: the wrapper discipline,
evaluated on concrete events of the all-successful cluster's run. -/
theorem helper_steps_wrapper_discipline_witness :
    eventWrapperOK (Event.createSubCall demoBuiltSub Wrapper.direct : Event Nat) ∧
    eventWrapperOK
      (Event.getIPCall { name := "ip-1", ns := "ns1" } Wrapper.retryConflict : Event Nat) ∧
    eventWrapperOK
      (Event.getSubCall { name := "csv-v1", ns := "ns1" } Wrapper.poll : Event Nat) :=
  ⟨(helper_steps_wrapper_discipline demoInstaller okCluster demoCatalog demoBuiltSub
      demoFetchedSub).2.1 (Event.createSubCall demoBuiltSub Wrapper.direct) (by decide),
    (helper_steps_wrapper_discipline demoInstaller okCluster demoCatalog demoBuiltSub
      demoFetchedSub).2.2.2.1 none
      [Event.getIPCall { name := "ip-1", ns := "ns1" } Wrapper.retryConflict,
        Event.updateIPCall
          { name := "ip-1", ns := "ns1", approved := true, rest := (0 : Nat) }
          Wrapper.retryConflict] (by rfl)
      (Event.getIPCall { name := "ip-1", ns := "ns1" } Wrapper.retryConflict) (by decide),
    (helper_steps_wrapper_discipline demoInstaller okCluster demoCatalog demoBuiltSub
      demoFetchedSub).2.2.1
      (Event.getSubCall { name := "csv-v1", ns := "ns1" } Wrapper.poll) (by decide)⟩

end OperatorSDK
